import Mathlib

/-!
Verification of the Counter-dApp program (programs/counter/src/lib.rs).

The program manages per-user counter records on a ledger: a record stores a
64-bit count, a one-byte address seed (bump) and an owner identity
(authority).  Four operations exist: create (the Rust handler that sets up a
fresh record), increment, decrement and close.  The handlers are embedded
below as pure Lean functions; u64 values are modelled as Nat together with
the bound U64MAX, and the checked arithmetic of the source is reproduced
literally.  The surrounding ledger runtime (account allocation at a
deterministic address, rollback on failure, deposit refund on close) is not
part of the Rust source; those parts are modelled from the spec and marked
as such in their doc comments.
-/

/-- Owner identities (Rust Pubkey), abstracted to natural numbers: the
program only ever compares them for equality. -/
abbrev Pubkey := Nat

/-- Largest value of an unsigned 64-bit integer, 2^64 - 1. -/
def U64MAX : Nat := 2 ^ 64 - 1

/-- Rust u64 checked_add: some of the sum when it fits in 64 bits,
none on overflow. -/
def checked_add (a b : Nat) : Option Nat :=
  if a + b ≤ U64MAX then some (a + b) else none

/-- Rust u64 checked_sub: some of the difference when it does not go below
zero, none on underflow. -/
def checked_sub (a b : Nat) : Option Nat :=
  if b ≤ a then some (a - b) else none

/-- The Counter account data structure: count, bump and authority fields,
exactly as in the Rust struct Counter. -/
structure Counter where
  count : Nat
  bump : Nat
  authority : Pubkey
deriving DecidableEq

/-- Modelled from the spec: a deterministic storage address derived from the
fixed namespace tag and the owner identity.  The concrete hash used on the
real ledger is external to the source; the model keeps exactly what the spec
relies on, that the address is a deterministic, owner-injective function of
the pair (tag, owner). -/
structure Address where
  tag : String
  owner : Pubkey
deriving DecidableEq

/-- Modelled from the spec: the address derivation collaborator applied to
the fixed namespace tag "counter" and an owner identity. -/
def deriveAddress (owner : Pubkey) : Address :=
  { tag := "counter", owner := owner }

/-- Modelled from the spec: the verification seed (bump) produced by the
address derivation; a deterministic single byte.  Its concrete value is
chosen by the external derivation scheme, so the model fixes an arbitrary
deterministic one. -/
def deriveBump (_owner : Pubkey) : Nat := 255

/-- The CounterInitialized announcement emitted when a record is created. -/
structure CounterInitialized where
  user : Pubkey
  counter : Address
  count : Nat
deriving DecidableEq

/-- The CounterUpdated announcement emitted on increment and decrement. -/
structure CounterUpdated where
  user : Pubkey
  counter : Address
  previous_count : Nat
  new_count : Nat
  operation : String
deriving DecidableEq

/-- The CounterClosed announcement emitted when a record is destroyed. -/
structure CounterClosed where
  user : Pubkey
  counter : Address
  final_count : Nat
deriving DecidableEq

/-- Sum of the three announcement shapes, to speak about the stream of
emitted notifications uniformly. -/
inductive Event where
  | created : CounterInitialized → Event
  | updated : CounterUpdated → Event
  | closed : CounterClosed → Event
deriving DecidableEq

/-- The error enumeration of the program (enum CounterError). -/
inductive CounterError where
  | CounterOverflow
  | CounterUnderflow
  | Unauthorized
deriving DecidableEq

/-- The increment handler (pub fn increment): requires the caller to be the
record authority, adds one with checked_add (overflow yields
CounterOverflow), and on success returns the updated record together with
the CounterUpdated event it emits. -/
def increment (counter : Counter) (counterKey : Address) (user : Pubkey) :
    Except CounterError (Counter × CounterUpdated) :=
  if counter.authority = user then
    match checked_add counter.count 1 with
    | some c =>
        Except.ok ({ counter with count := c },
          { user := user, counter := counterKey,
            previous_count := counter.count, new_count := c,
            operation := "increment" })
    | none => Except.error CounterError.CounterOverflow
  else Except.error CounterError.Unauthorized

/-- The decrement handler (pub fn decrement): requires the caller to be the
record authority, subtracts one with checked_sub (underflow yields
CounterUnderflow), and on success returns the updated record together with
the CounterUpdated event it emits. -/
def decrement (counter : Counter) (counterKey : Address) (user : Pubkey) :
    Except CounterError (Counter × CounterUpdated) :=
  if counter.authority = user then
    match checked_sub counter.count 1 with
    | some c =>
        Except.ok ({ counter with count := c },
          { user := user, counter := counterKey,
            previous_count := counter.count, new_count := c,
            operation := "decrement" })
    | none => Except.error CounterError.CounterUnderflow
  else Except.error CounterError.Unauthorized

/-- The close handler (pub fn close): requires the caller to be the record
authority and returns the CounterClosed event carrying the final count; the
record itself is removed by the ledger step (runClose below). -/
def close (counter : Counter) (counterKey : Address) (user : Pubkey) :
    Except CounterError CounterClosed :=
  if counter.authority = user then
    Except.ok { user := user, counter := counterKey,
                final_count := counter.count }
  else Except.error CounterError.Unauthorized

/-- Body of the create handler (pub fn initialize): the fresh record with
count zero, the stored bump, authority set to the creating user, and the
CounterInitialized event it emits. -/
def initCounterRecord (user : Pubkey) (counterKey : Address) (bump : Nat) :
    Counter × CounterInitialized :=
  ({ count := 0, bump := bump, authority := user },
   { user := user, counter := counterKey, count := 0 })

/-- Record store of the ledger: an association list from addresses to
counter records. -/
abbrev RecordStore := List (Address × Counter)

/-- Balance store of the ledger: an association list from identities to
resource balances (absent means zero). -/
abbrev BalanceStore := List (Pubkey × Nat)

/-- Look up the record stored at an address. -/
def lookupRecord : RecordStore → Address → Option Counter
  | [], _ => none
  | (a, c) :: rest, x => if a = x then some c else lookupRecord rest x

/-- Replace the record stored at an address. -/
def setRecord : RecordStore → Address → Counter → RecordStore
  | [], a, c => [(a, c)]
  | (a', c') :: rest, a, c =>
      if a' = a then (a, c) :: rest else (a', c') :: setRecord rest a c

/-- Remove the record stored at an address. -/
def removeRecord : RecordStore → Address → RecordStore
  | [], _ => []
  | (a', c') :: rest, a =>
      if a' = a then removeRecord rest a else (a', c') :: removeRecord rest a

/-- Balance held by an identity (zero when absent). -/
def getBalance : BalanceStore → Pubkey → Nat
  | [], _ => 0
  | (u', v) :: rest, u => if u' = u then v else getBalance rest u

/-- Set the balance held by an identity. -/
def setBalance : BalanceStore → Pubkey → Nat → BalanceStore
  | [], u, v => [(u, v)]
  | (u', v') :: rest, u, v =>
      if u' = u then (u, v) :: rest else (u', v') :: setBalance rest u v

/-- Add an amount to an identity's balance. -/
def credit (l : BalanceStore) (u : Pubkey) (amt : Nat) : BalanceStore :=
  setBalance l u (getBalance l u + amt)

/-- Subtract an amount from an identity's balance (truncated at zero; the
claims never depend on the debit side). -/
def debit (l : BalanceStore) (u : Pubkey) (amt : Nat) : BalanceStore :=
  setBalance l u (getBalance l u - amt)

/-- Modelled from the spec: the storage deposit supplied at creation and
returned at destruction.  Its magnitude is fixed by the external ledger and
is irrelevant to every claim, so the model takes an arbitrary constant. -/
def RENT : Nat := 1

/-- Ledger state: the record store plus the resource balances. -/
structure Ledger where
  records : RecordStore
  lamports : BalanceStore
deriving DecidableEq

/-- Ledger-level failures: a handler error, creation at an occupied address
(rejected by the allocation primitive), or no record at the derived
address. -/
inductive TxError where
  | counterErr : CounterError → TxError
  | addressOccupied
  | accountNotFound
deriving DecidableEq

/-- One instruction of the program, tagged with the calling identity. -/
inductive Instruction where
  | ixCreate : Pubkey → Instruction
  | ixIncrement : Pubkey → Instruction
  | ixDecrement : Pubkey → Instruction
  | ixClose : Pubkey → Instruction
deriving DecidableEq

/-- Modelled from the spec: the create step.  The allocation primitive
rejects the call when the derived address is occupied; otherwise the record
produced by the handler body is stored there and the user supplies the
storage deposit. -/
def runCreate (st : Ledger) (user : Pubkey) :
    Ledger × List Event × Option TxError :=
  match lookupRecord st.records (deriveAddress user) with
  | some _ => (st, [], some TxError.addressOccupied)
  | none =>
      let p := initCounterRecord user (deriveAddress user) (deriveBump user)
      ({ records := (deriveAddress user, p.1) :: st.records,
         lamports := debit st.lamports user RENT },
       [Event.created p.2], none)

/-- Ledger step for increment: fetch the record at the address derived from
the caller, run the handler, and on success store the updated record; on
failure the ledger is left untouched (transaction rollback). -/
def runIncrement (st : Ledger) (user : Pubkey) :
    Ledger × List Event × Option TxError :=
  match lookupRecord st.records (deriveAddress user) with
  | none => (st, [], some TxError.accountNotFound)
  | some c =>
      match increment c (deriveAddress user) user with
      | Except.ok pc =>
          ({ st with
             records := setRecord st.records (deriveAddress user) pc.1 },
           [Event.updated pc.2], none)
      | Except.error e => (st, [], some (TxError.counterErr e))

/-- Ledger step for decrement, symmetric to runIncrement. -/
def runDecrement (st : Ledger) (user : Pubkey) :
    Ledger × List Event × Option TxError :=
  match lookupRecord st.records (deriveAddress user) with
  | none => (st, [], some TxError.accountNotFound)
  | some c =>
      match decrement c (deriveAddress user) user with
      | Except.ok pc =>
          ({ st with
             records := setRecord st.records (deriveAddress user) pc.1 },
           [Event.updated pc.2], none)
      | Except.error e => (st, [], some (TxError.counterErr e))

/-- Modelled from the spec: the close step.  On success the record is
removed from storage and the deposit is returned to the caller, as the
close = user account attribute directs the ledger to do. -/
def runClose (st : Ledger) (user : Pubkey) :
    Ledger × List Event × Option TxError :=
  match lookupRecord st.records (deriveAddress user) with
  | none => (st, [], some TxError.accountNotFound)
  | some c =>
      match close c (deriveAddress user) user with
      | Except.ok ev =>
          ({ records := removeRecord st.records (deriveAddress user),
             lamports := credit st.lamports user RENT },
           [Event.closed ev], none)
      | Except.error e => (st, [], some (TxError.counterErr e))

/-- One atomic transaction of the program: dispatch on the instruction.  A
failing transaction returns the ledger unchanged and emits nothing. -/
def runInstruction (st : Ledger) (i : Instruction) :
    Ledger × List Event × Option TxError :=
  match i with
  | Instruction.ixCreate u => runCreate st u
  | Instruction.ixIncrement u => runIncrement st u
  | Instruction.ixDecrement u => runDecrement st u
  | Instruction.ixClose u => runClose st u

/-- C1: for a record owned by the caller, increment succeeds below the u64
maximum, adding exactly one; at the maximum it fails with CounterOverflow
and a ledger holding such a record is left unchanged with no event. -/
theorem increment_spec (r : Counter) (k : Address) (u : Pubkey)
    (hauth : r.authority = u) (hle : r.count ≤ U64MAX) :
    (r.count < U64MAX →
      increment r k u =
        Except.ok ({ r with count := r.count + 1 },
          { user := u, counter := k, previous_count := r.count,
            new_count := r.count + 1, operation := "increment" })) ∧
    (r.count = U64MAX →
      increment r k u = Except.error CounterError.CounterOverflow ∧
      ∀ st : Ledger, lookupRecord st.records (deriveAddress u) = some r →
        runInstruction st (Instruction.ixIncrement u) =
          (st, [], some (TxError.counterErr CounterError.CounterOverflow))) := by
  constructor
  · intro hlt
    simp [increment, checked_add, hauth, Nat.succ_le_of_lt hlt]
  · intro hmax
    have hfail : ∀ k' : Address,
        increment r k' u = Except.error CounterError.CounterOverflow := by
      intro k'
      simp [increment, checked_add, hauth, hmax]
    refine ⟨hfail k, ?_⟩
    intro st hlook
    simp [runInstruction, runIncrement, hlook, hfail (deriveAddress u)]

/-- Witness for C1 at a concrete record of count zero owned by identity 1. -/
theorem increment_spec_witness :
    ((0 : Nat) < U64MAX →
      increment ⟨0, 255, 1⟩ (deriveAddress 1) 1 =
        Except.ok (⟨1, 255, 1⟩,
          { user := 1, counter := deriveAddress 1, previous_count := 0,
            new_count := 1, operation := "increment" })) ∧
    ((0 : Nat) = U64MAX →
      increment ⟨0, 255, 1⟩ (deriveAddress 1) 1 =
        Except.error CounterError.CounterOverflow ∧
      ∀ st : Ledger,
        lookupRecord st.records (deriveAddress 1) = some ⟨0, 255, 1⟩ →
        runInstruction st (Instruction.ixIncrement 1) =
          (st, [], some (TxError.counterErr CounterError.CounterOverflow))) :=
  increment_spec ⟨0, 255, 1⟩ (deriveAddress 1) 1 (by decide) (by decide)

/-- C2: for a record owned by the caller, decrement succeeds on a positive
count, subtracting exactly one; at count zero it fails with CounterUnderflow
and a ledger holding such a record is left unchanged with no event. -/
theorem decrement_spec (r : Counter) (k : Address) (u : Pubkey)
    (hauth : r.authority = u) :
    (0 < r.count →
      decrement r k u =
        Except.ok ({ r with count := r.count - 1 },
          { user := u, counter := k, previous_count := r.count,
            new_count := r.count - 1, operation := "decrement" })) ∧
    (r.count = 0 →
      decrement r k u = Except.error CounterError.CounterUnderflow ∧
      ∀ st : Ledger, lookupRecord st.records (deriveAddress u) = some r →
        runInstruction st (Instruction.ixDecrement u) =
          (st, [], some (TxError.counterErr CounterError.CounterUnderflow))) := by
  constructor
  · intro hpos
    have h1 : 1 ≤ r.count := hpos
    simp [decrement, checked_sub, hauth, h1]
  · intro hzero
    have hfail : ∀ k' : Address,
        decrement r k' u = Except.error CounterError.CounterUnderflow := by
      intro k'
      simp [decrement, checked_sub, hauth, hzero]
    refine ⟨hfail k, ?_⟩
    intro st hlook
    simp [runInstruction, runDecrement, hlook, hfail (deriveAddress u)]

/-- Witness for C2 at a concrete record of count one owned by identity 1. -/
theorem decrement_spec_witness :
    (0 < (1 : Nat) →
      decrement ⟨1, 255, 1⟩ (deriveAddress 1) 1 =
        Except.ok (⟨0, 255, 1⟩,
          { user := 1, counter := deriveAddress 1, previous_count := 1,
            new_count := 0, operation := "decrement" })) ∧
    ((1 : Nat) = 0 →
      decrement ⟨1, 255, 1⟩ (deriveAddress 1) 1 =
        Except.error CounterError.CounterUnderflow ∧
      ∀ st : Ledger,
        lookupRecord st.records (deriveAddress 1) = some ⟨1, 255, 1⟩ →
        runInstruction st (Instruction.ixDecrement 1) =
          (st, [], some (TxError.counterErr CounterError.CounterUnderflow))) :=
  decrement_spec ⟨1, 255, 1⟩ (deriveAddress 1) 1 (by decide)

/-- C3: when the caller is not the record authority, increment, decrement
and close all fail with Unauthorized, and a ledger holding such a record at
the caller's derived address is left unchanged with no event. -/
theorem unauthorized_spec (r : Counter) (k : Address) (u : Pubkey)
    (st : Ledger) (hauth : r.authority ≠ u)
    (hlook : lookupRecord st.records (deriveAddress u) = some r) :
    increment r k u = Except.error CounterError.Unauthorized ∧
    decrement r k u = Except.error CounterError.Unauthorized ∧
    close r k u = Except.error CounterError.Unauthorized ∧
    runInstruction st (Instruction.ixIncrement u) =
      (st, [], some (TxError.counterErr CounterError.Unauthorized)) ∧
    runInstruction st (Instruction.ixDecrement u) =
      (st, [], some (TxError.counterErr CounterError.Unauthorized)) ∧
    runInstruction st (Instruction.ixClose u) =
      (st, [], some (TxError.counterErr CounterError.Unauthorized)) := by
  have hinc : ∀ k' : Address,
      increment r k' u = Except.error CounterError.Unauthorized := by
    intro k'
    simp [increment, hauth]
  have hdec : ∀ k' : Address,
      decrement r k' u = Except.error CounterError.Unauthorized := by
    intro k'
    simp [decrement, hauth]
  have hcls : ∀ k' : Address,
      close r k' u = Except.error CounterError.Unauthorized := by
    intro k'
    simp [close, hauth]
  refine ⟨hinc k, hdec k, hcls k, ?_, ?_, ?_⟩
  · simp [runInstruction, runIncrement, hlook, hinc (deriveAddress u)]
  · simp [runInstruction, runDecrement, hlook, hdec (deriveAddress u)]
  · simp [runInstruction, runClose, hlook, hcls (deriveAddress u)]

/-- Witness for C3: a record owned by identity 4 sitting at the address
derived for identity 5, attacked by caller 5. -/
theorem unauthorized_spec_witness :
    increment ⟨3, 255, 4⟩ (deriveAddress 5) 5 =
      Except.error CounterError.Unauthorized ∧
    decrement ⟨3, 255, 4⟩ (deriveAddress 5) 5 =
      Except.error CounterError.Unauthorized ∧
    close ⟨3, 255, 4⟩ (deriveAddress 5) 5 =
      Except.error CounterError.Unauthorized ∧
    runInstruction ⟨[(deriveAddress 5, ⟨3, 255, 4⟩)], []⟩
        (Instruction.ixIncrement 5) =
      (⟨[(deriveAddress 5, ⟨3, 255, 4⟩)], []⟩, [],
       some (TxError.counterErr CounterError.Unauthorized)) ∧
    runInstruction ⟨[(deriveAddress 5, ⟨3, 255, 4⟩)], []⟩
        (Instruction.ixDecrement 5) =
      (⟨[(deriveAddress 5, ⟨3, 255, 4⟩)], []⟩, [],
       some (TxError.counterErr CounterError.Unauthorized)) ∧
    runInstruction ⟨[(deriveAddress 5, ⟨3, 255, 4⟩)], []⟩
        (Instruction.ixClose 5) =
      (⟨[(deriveAddress 5, ⟨3, 255, 4⟩)], []⟩, [],
       some (TxError.counterErr CounterError.Unauthorized)) :=
  unauthorized_spec ⟨3, 255, 4⟩ (deriveAddress 5) 5
    ⟨[(deriveAddress 5, ⟨3, 255, 4⟩)], []⟩ (by decide) (by decide)

/-- Successful increment computed on a destructured record. -/
lemma increment_ok (c b : Nat) (a : Pubkey) (k : Address)
    (hc : c + 1 ≤ U64MAX) :
    increment ⟨c, b, a⟩ k a =
      Except.ok (⟨c + 1, b, a⟩, ⟨a, k, c, c + 1, "increment"⟩) := by
  simp [increment, checked_add, hc]

/-- Successful decrement computed on a destructured record. -/
lemma decrement_ok (c b : Nat) (a : Pubkey) (k : Address) (hc : 1 ≤ c) :
    decrement ⟨c, b, a⟩ k a =
      Except.ok (⟨c - 1, b, a⟩, ⟨a, k, c, c - 1, "decrement"⟩) := by
  simp [decrement, checked_sub, hc]

/-- Inversion of a successful increment: the caller was the authority, the
count was below the maximum, and the result is the record with count one
larger. -/
lemma increment_ok_inv (r r1 : Counter) (k : Address) (u : Pubkey)
    (e1 : CounterUpdated) (h : increment r k u = Except.ok (r1, e1)) :
    r.authority = u ∧ r.count + 1 ≤ U64MAX ∧
      r1 = ⟨r.count + 1, r.bump, r.authority⟩ := by
  by_cases ha : r.authority = u
  · by_cases hc : r.count + 1 ≤ U64MAX
    · simp [increment, checked_add, ha, hc] at h
      obtain ⟨c, b, a⟩ := r
      exact ⟨ha, hc, by simp_all⟩
    · simp [increment, checked_add, ha, hc] at h
  · simp [increment, ha] at h

/-- Inversion of a successful decrement: the caller was the authority, the
count was positive, and the result is the record with count one smaller. -/
lemma decrement_ok_inv (r r1 : Counter) (k : Address) (u : Pubkey)
    (e1 : CounterUpdated) (h : decrement r k u = Except.ok (r1, e1)) :
    r.authority = u ∧ 1 ≤ r.count ∧
      r1 = ⟨r.count - 1, r.bump, r.authority⟩ := by
  by_cases ha : r.authority = u
  · by_cases hc : 1 ≤ r.count
    · simp [decrement, checked_sub, ha, hc] at h
      obtain ⟨c, b, a⟩ := r
      exact ⟨ha, hc, by simp_all⟩
    · simp [decrement, checked_sub, ha, hc] at h
  · simp [decrement, ha] at h

/-- C4 counterexample: a valid record owned by identity 1 whose count sits
at the u64 maximum.  Executing Increment (which fails, leaving the ledger
unchanged) and then Decrement leaves the count at U64MAX - 1, so the
Increment-then-Decrement round trip does not restore the original value. -/
theorem roundtrip_cex :
    lookupRecord
      (runInstruction
        (runInstruction
          { records := [(deriveAddress 1, ⟨U64MAX, 255, 1⟩)], lamports := [] }
          (Instruction.ixIncrement 1)).1
        (Instruction.ixDecrement 1)).1.records (deriveAddress 1) =
      some ⟨U64MAX - 1, 255, 1⟩ ∧ U64MAX - 1 ≠ U64MAX := by
  exact ⟨by decide, by decide⟩

/-- C4 amended: for a record owned by the caller with count in the u64
domain, whenever Increment succeeds the subsequent Decrement succeeds and
restores the whole original record, and symmetrically whenever Decrement
succeeds the subsequent Increment restores it. -/
theorem roundtrip_amended (r : Counter) (k : Address) (u : Pubkey)
    (hauth : r.authority = u) (hle : r.count ≤ U64MAX) :
    (∀ r1 e1, increment r k u = Except.ok (r1, e1) →
      ∃ e2, decrement r1 k u = Except.ok (r, e2)) ∧
    (∀ r1 e1, decrement r k u = Except.ok (r1, e1) →
      ∃ e2, increment r1 k u = Except.ok (r, e2)) := by
  obtain ⟨c, b, a⟩ := r
  have ha : a = u := hauth
  subst ha
  constructor
  · intro r1 e1 h
    obtain ⟨-, hc, hr1⟩ := increment_ok_inv _ _ _ _ _ h
    subst hr1
    exact ⟨_, decrement_ok (c + 1) b a k (by omega)⟩
  · intro r1 e1 h
    obtain ⟨-, hc, hr1⟩ := decrement_ok_inv _ _ _ _ _ h
    subst hr1
    dsimp only at hle hc
    refine ⟨⟨a, k, c - 1, c - 1 + 1, "increment"⟩, ?_⟩
    rw [increment_ok (c - 1) b a k (by omega)]
    have hcc : c - 1 + 1 = c := by omega
    rw [hcc]

/-- Witness for the amended C4 at a concrete record of count one. -/
theorem roundtrip_amended_witness :
    (∀ r1 e1,
      increment ⟨1, 255, 9⟩ (deriveAddress 9) 9 = Except.ok (r1, e1) →
      ∃ e2, decrement r1 (deriveAddress 9) 9 =
        Except.ok (⟨1, 255, 9⟩, e2)) ∧
    (∀ r1 e1,
      decrement ⟨1, 255, 9⟩ (deriveAddress 9) 9 = Except.ok (r1, e1) →
      ∃ e2, increment r1 (deriveAddress 9) 9 =
        Except.ok (⟨1, 255, 9⟩, e2)) :=
  roundtrip_amended ⟨1, 255, 9⟩ (deriveAddress 9) 9 (by decide) (by decide)

/-- C5: every transaction is atomic: it either fully succeeds, with the
error slot empty and exactly one emitted notification, or fully fails, with
an error reported, the ledger returned unchanged, and no notification. -/
theorem atomicity_spec (st : Ledger) (i : Instruction) :
    ((runInstruction st i).2.2 = none ∧
      ∃ e : Event, (runInstruction st i).2.1 = [e]) ∨
    ((runInstruction st i).2.2 ≠ none ∧ (runInstruction st i).1 = st ∧
      (runInstruction st i).2.1 = []) := by
  cases i with
  | ixCreate u =>
      rcases hl : lookupRecord st.records (deriveAddress u) with _ | c
      · left
        simp [runInstruction, runCreate, hl]
      · right
        simp [runInstruction, runCreate, hl]
  | ixIncrement u =>
      rcases hl : lookupRecord st.records (deriveAddress u) with _ | c
      · right
        simp [runInstruction, runIncrement, hl]
      · rcases hh : increment c (deriveAddress u) u with e | pc
        · right
          simp [runInstruction, runIncrement, hl, hh]
        · left
          simp [runInstruction, runIncrement, hl, hh]
  | ixDecrement u =>
      rcases hl : lookupRecord st.records (deriveAddress u) with _ | c
      · right
        simp [runInstruction, runDecrement, hl]
      · rcases hh : decrement c (deriveAddress u) u with e | pc
        · right
          simp [runInstruction, runDecrement, hl, hh]
        · left
          simp [runInstruction, runDecrement, hl, hh]
  | ixClose u =>
      rcases hl : lookupRecord st.records (deriveAddress u) with _ | c
      · right
        simp [runInstruction, runClose, hl]
      · rcases hh : close c (deriveAddress u) u with e | ev
        · right
          simp [runInstruction, runClose, hl, hh]
        · left
          simp [runInstruction, runClose, hl, hh]

/-- C6: creating a counter for an owner with no record at the derived
address succeeds, allocates the record at that deterministic address with
count zero, authority set to the owner and the derivation seed stored, and
emits the creation notification. -/
theorem create_spec (st : Ledger) (o : Pubkey)
    (h : lookupRecord st.records (deriveAddress o) = none) :
    runInstruction st (Instruction.ixCreate o) =
      ({ records :=
           (deriveAddress o, ⟨0, deriveBump o, o⟩) :: st.records,
         lamports := debit st.lamports o RENT },
       [Event.created ⟨o, deriveAddress o, 0⟩], none) ∧
    lookupRecord
      (runInstruction st (Instruction.ixCreate o)).1.records
      (deriveAddress o) = some ⟨0, deriveBump o, o⟩ := by
  have hrun : runInstruction st (Instruction.ixCreate o) =
      ({ records :=
           (deriveAddress o, ⟨0, deriveBump o, o⟩) :: st.records,
         lamports := debit st.lamports o RENT },
       [Event.created ⟨o, deriveAddress o, 0⟩], none) := by
    simp [runInstruction, runCreate, h, initCounterRecord]
  refine ⟨hrun, ?_⟩
  rw [hrun]
  simp [lookupRecord]

/-- Witness for C6: creating a counter for owner 2 on the empty ledger. -/
theorem create_spec_witness :
    runInstruction { records := [], lamports := [] }
        (Instruction.ixCreate 2) =
      ({ records := [(deriveAddress 2, ⟨0, deriveBump 2, 2⟩)],
         lamports := debit [] 2 RENT },
       [Event.created ⟨2, deriveAddress 2, 0⟩], none) ∧
    lookupRecord
      (runInstruction { records := [], lamports := [] }
        (Instruction.ixCreate 2)).1.records
      (deriveAddress 2) = some ⟨0, deriveBump 2, 2⟩ :=
  create_spec { records := [], lamports := [] } 2 (by decide)

/-- C8: after a successful creation for an owner, an immediately repeated
creation for the same owner fails because the deterministic address is
already occupied, and it leaves the ledger unchanged. -/
theorem create_unique (st : Ledger) (o : Pubkey)
    (h : lookupRecord st.records (deriveAddress o) = none) :
    (runInstruction st (Instruction.ixCreate o)).2.2 = none ∧
    runInstruction (runInstruction st (Instruction.ixCreate o)).1
        (Instruction.ixCreate o) =
      ((runInstruction st (Instruction.ixCreate o)).1, [],
       some TxError.addressOccupied) := by
  have hrun : runInstruction st (Instruction.ixCreate o) =
      ({ records :=
           (deriveAddress o, ⟨0, deriveBump o, o⟩) :: st.records,
         lamports := debit st.lamports o RENT },
       [Event.created ⟨o, deriveAddress o, 0⟩], none) := by
    simp [runInstruction, runCreate, h, initCounterRecord]
  rw [hrun]
  refine ⟨rfl, ?_⟩
  simp [runInstruction, runCreate, lookupRecord]

/-- Witness for C8: double creation for owner 2 on the empty ledger. -/
theorem create_unique_witness :
    (runInstruction { records := [], lamports := [] }
        (Instruction.ixCreate 2)).2.2 = none ∧
    runInstruction
        (runInstruction { records := [], lamports := [] }
          (Instruction.ixCreate 2)).1
        (Instruction.ixCreate 2) =
      ((runInstruction { records := [], lamports := [] }
          (Instruction.ixCreate 2)).1, [],
       some TxError.addressOccupied) :=
  create_unique { records := [], lamports := [] } 2 (by decide)

/-- Removing the record at an address empties every entry at that address. -/
lemma lookupRecord_removeRecord (l : RecordStore) (a : Address) :
    lookupRecord (removeRecord l a) a = none := by
  induction l with
  | nil => simp [removeRecord, lookupRecord]
  | cons p rest ih =>
      obtain ⟨a', c'⟩ := p
      by_cases hp : a' = a
      · simp [removeRecord, hp, ih]
      · simp [removeRecord, lookupRecord, hp, ih]

/-- Reading back a balance just written returns the written value. -/
lemma getBalance_setBalance (l : BalanceStore) (u : Pubkey) (v : Nat) :
    getBalance (setBalance l u v) u = v := by
  induction l with
  | nil => simp [setBalance, getBalance]
  | cons p rest ih =>
      obtain ⟨u', v'⟩ := p
      by_cases hp : u' = u
      · simp [setBalance, getBalance, hp]
      · simp [setBalance, getBalance, hp, ih]

/-- C7: closing a record owned by the caller succeeds for every count
value: the Closed notification carrying the count the record held at entry
is the single emitted event, the record is removed from storage, and the
creation deposit is returned to the owner. -/
theorem close_spec (st : Ledger) (u : Pubkey) (r : Counter)
    (hlook : lookupRecord st.records (deriveAddress u) = some r)
    (hauth : r.authority = u) :
    (runInstruction st (Instruction.ixClose u)).2.2 = none ∧
    (runInstruction st (Instruction.ixClose u)).2.1 =
      [Event.closed ⟨u, deriveAddress u, r.count⟩] ∧
    lookupRecord (runInstruction st (Instruction.ixClose u)).1.records
      (deriveAddress u) = none ∧
    getBalance (runInstruction st (Instruction.ixClose u)).1.lamports u =
      getBalance st.lamports u + RENT := by
  have hcl : close r (deriveAddress u) u =
      Except.ok ⟨u, deriveAddress u, r.count⟩ := by
    simp [close, hauth]
  have hrun : runInstruction st (Instruction.ixClose u) =
      ({ records := removeRecord st.records (deriveAddress u),
         lamports := credit st.lamports u RENT },
       [Event.closed ⟨u, deriveAddress u, r.count⟩], none) := by
    simp [runInstruction, runClose, hlook, hcl]
  rw [hrun]
  exact ⟨rfl, rfl, lookupRecord_removeRecord _ _,
    getBalance_setBalance _ _ _⟩

/-- Witness for C7: closing the counter of owner 3 holding count 7. -/
theorem close_spec_witness :
    (runInstruction
        { records := [(deriveAddress 3, ⟨7, 255, 3⟩)], lamports := [] }
        (Instruction.ixClose 3)).2.2 = none ∧
    (runInstruction
        { records := [(deriveAddress 3, ⟨7, 255, 3⟩)], lamports := [] }
        (Instruction.ixClose 3)).2.1 =
      [Event.closed ⟨3, deriveAddress 3, 7⟩] ∧
    lookupRecord
      (runInstruction
        { records := [(deriveAddress 3, ⟨7, 255, 3⟩)], lamports := [] }
        (Instruction.ixClose 3)).1.records (deriveAddress 3) = none ∧
    getBalance
      (runInstruction
        { records := [(deriveAddress 3, ⟨7, 255, 3⟩)], lamports := [] }
        (Instruction.ixClose 3)).1.lamports 3 =
      getBalance [] 3 + RENT :=
  close_spec { records := [(deriveAddress 3, ⟨7, 255, 3⟩)], lamports := [] }
    3 ⟨7, 255, 3⟩ (by decide) (by decide)

/-- C9: a successful increment or decrement preserves the authority and the
stored bump seed, changes the count by exactly one, and keeps the count
inside the u64 domain. -/
theorem frame_spec (r : Counter) (k : Address) (u : Pubkey)
    (hle : r.count ≤ U64MAX) :
    (∀ r1 e1, increment r k u = Except.ok (r1, e1) →
      r1.authority = r.authority ∧ r1.bump = r.bump ∧
      r1.count = r.count + 1 ∧ r1.count ≤ U64MAX) ∧
    (∀ r2 e2, decrement r k u = Except.ok (r2, e2) →
      r2.authority = r.authority ∧ r2.bump = r.bump ∧
      r2.count + 1 = r.count ∧ r2.count ≤ U64MAX) := by
  constructor
  · intro r1 e1 h
    obtain ⟨-, hc, hr1⟩ := increment_ok_inv _ _ _ _ _ h
    subst hr1
    exact ⟨rfl, rfl, rfl, hc⟩
  · intro r2 e2 h
    obtain ⟨-, hc, hr2⟩ := decrement_ok_inv _ _ _ _ _ h
    subst hr2
    refine ⟨rfl, rfl, ?_, ?_⟩ <;> dsimp only <;> omega

/-- Witness for C9 at a concrete record of count five owned by identity 6. -/
theorem frame_spec_witness :
    (∀ r1 e1,
      increment ⟨5, 254, 6⟩ (deriveAddress 6) 6 = Except.ok (r1, e1) →
      r1.authority = 6 ∧ r1.bump = 254 ∧ r1.count = 5 + 1 ∧
      r1.count ≤ U64MAX) ∧
    (∀ r2 e2,
      decrement ⟨5, 254, 6⟩ (deriveAddress 6) 6 = Except.ok (r2, e2) →
      r2.authority = 6 ∧ r2.bump = 254 ∧ r2.count + 1 = 5 ∧
      r2.count ≤ U64MAX) :=
  frame_spec ⟨5, 254, 6⟩ (deriveAddress 6) 6 (by decide)

/-- C10: a successful increment emits exactly one Updated notification,
with previous count equal to the count at entry, new count equal to the
count after the operation, and the tag "increment"; a successful decrement
emits the same shape with the tag "decrement".  The single-event form is
stated both on the handler result and on the ledger transaction. -/
theorem events_spec (st : Ledger) (r : Counter) (u : Pubkey)
    (hlook : lookupRecord st.records (deriveAddress u) = some r) :
    (∀ r1 e1, increment r (deriveAddress u) u = Except.ok (r1, e1) →
      e1 = ⟨u, deriveAddress u, r.count, r1.count, "increment"⟩ ∧
      r1.count = r.count + 1 ∧
      (runInstruction st (Instruction.ixIncrement u)).2.1 =
        [Event.updated
          ⟨u, deriveAddress u, r.count, r1.count, "increment"⟩]) ∧
    (∀ r2 e2, decrement r (deriveAddress u) u = Except.ok (r2, e2) →
      e2 = ⟨u, deriveAddress u, r.count, r2.count, "decrement"⟩ ∧
      r2.count + 1 = r.count ∧
      (runInstruction st (Instruction.ixDecrement u)).2.1 =
        [Event.updated
          ⟨u, deriveAddress u, r.count, r2.count, "decrement"⟩]) := by
  obtain ⟨c, b, a⟩ := r
  constructor
  · intro r1 e1 h
    by_cases ha : a = u
    · subst ha
      by_cases hc : c + 1 ≤ U64MAX
      · rw [increment_ok c b a (deriveAddress a) hc] at h
        simp only [Except.ok.injEq, Prod.mk.injEq] at h
        obtain ⟨hr1, he1⟩ := h
        subst hr1
        subst he1
        refine ⟨rfl, rfl, ?_⟩
        simp [runInstruction, runIncrement, hlook,
          increment_ok c b a (deriveAddress a) hc]
      · simp [increment, checked_add, hc] at h
    · simp [increment, ha] at h
  · intro r2 e2 h
    by_cases ha : a = u
    · subst ha
      by_cases hc : 1 ≤ c
      · rw [decrement_ok c b a (deriveAddress a) hc] at h
        simp only [Except.ok.injEq, Prod.mk.injEq] at h
        obtain ⟨hr2, he2⟩ := h
        subst hr2
        subst he2
        refine ⟨rfl, ?_, ?_⟩
        · dsimp only
          omega
        · simp [runInstruction, runDecrement, hlook,
            decrement_ok c b a (deriveAddress a) hc]
      · simp [decrement, checked_sub, hc] at h
    · simp [decrement, ha] at h

/-- Witness for C10 on a singleton ledger holding a count of one for
owner 8. -/
theorem events_spec_witness :
    (∀ r1 e1,
      increment ⟨1, 255, 8⟩ (deriveAddress 8) 8 = Except.ok (r1, e1) →
      e1 = ⟨8, deriveAddress 8, 1, r1.count, "increment"⟩ ∧
      r1.count = 1 + 1 ∧
      (runInstruction
        { records := [(deriveAddress 8, ⟨1, 255, 8⟩)], lamports := [] }
        (Instruction.ixIncrement 8)).2.1 =
        [Event.updated ⟨8, deriveAddress 8, 1, r1.count, "increment"⟩]) ∧
    (∀ r2 e2,
      decrement ⟨1, 255, 8⟩ (deriveAddress 8) 8 = Except.ok (r2, e2) →
      e2 = ⟨8, deriveAddress 8, 1, r2.count, "decrement"⟩ ∧
      r2.count + 1 = 1 ∧
      (runInstruction
        { records := [(deriveAddress 8, ⟨1, 255, 8⟩)], lamports := [] }
        (Instruction.ixDecrement 8)).2.1 =
        [Event.updated ⟨8, deriveAddress 8, 1, r2.count, "decrement"⟩]) :=
  events_spec
    { records := [(deriveAddress 8, ⟨1, 255, 8⟩)], lamports := [] }
    ⟨1, 255, 8⟩ 8 (by decide)
